import Mathlib

/-!
Shallow embedding of the `royalbit/ref` link-checker and data-refresher
scripts (`src/bin/check-links.js`, the `refresh-data.js` part of the
sources, and the concurrency-enabled variant of `check-links.js`).

Conventions of the embedding:
* JavaScript numbers that hold HTTP statuses are modelled as `Int`;
  a JS `null` field is `Option.none`.
* `String.prototype.includes` is modelled by `includesStr` on the
  underlying character lists.
* The nondeterministic outcome of one browser navigation attempt is an
  explicit `NavEvent` value supplied by the environment; `checkUrl`
  translates it into a result record exactly as the `try`/`catch` block
  of the source does.
* The cooperative worker pool is modelled as a labelled transition
  system `PoolStep` over `PoolState`.
-/

namespace RefTools

/-- Configuration object `CONFIG` of check-links.js: the retry budget. -/
def retriesConfig : Nat := 1

/-- Configuration object `CONFIG` of check-links.js: the default pool size. -/
def defaultConcurrency : Nat := 5

/-- Substring occurrence on character lists; `containsSub hay pat` is true
iff `pat` occurs contiguously in `hay` (for empty `pat` it is true, as for
JS `includes`). -/
def containsSub (pat : List Char) : List Char → Bool
  | [] => pat.isEmpty
  | c :: t => pat.isPrefixOf (c :: t) || containsSub pat t

/-- Embedding of JavaScript `s.includes(pat)`. -/
def includesStr (s pat : String) : Bool :=
  containsSub pat.data s.data

/-- Result record built by `checkUrl` (the object literal of lines 39-46):
`{ url, status, statusText, title, error, time }`. -/
structure CheckResult where
  url : String
  status : Option Int
  statusText : Option String
  title : Option String
  error : Option String
  time : Int
deriving DecidableEq, Repr

/-- The JSON keys of the result object literal built by `checkUrl`
(lines 39-46); these are exactly the fields serialized into the report. -/
def resultKeys : List String :=
  ["url", "status", "statusText", "title", "error", "time"]

/-- What one navigation attempt did, as observed by `checkUrl`:
`page.goto` returned a response, returned null, or threw with a message. -/
inductive NavEvent where
  | success (status : Int) (statusText : String) (title : Option String)
  | noResponse (title : Option String)
  | failure (msg : String)
deriving DecidableEq, Repr

/-- Embedding of `checkUrl` (lines 38-82): on a response, record
`response?.status() || 0` and `response?.statusText() || 'Unknown'`;
on an exception, record the message and map the four recognized
network-error signatures to status 0, leaving status null otherwise. -/
def checkUrl (url : String) (ev : NavEvent) (elapsed : Int) : CheckResult :=
  match ev with
  | .success s st t =>
      { url := url, status := some s,
        statusText := some (if st = "" then "Unknown" else st),
        title := t, error := none, time := elapsed }
  | .noResponse t =>
      { url := url, status := some 0, statusText := some "Unknown",
        title := t, error := none, time := elapsed }
  | .failure msg =>
      if includesStr msg "net::ERR_NAME_NOT_RESOLVED" then
        { url := url, status := some 0, statusText := some "DNS_FAILED",
          title := none, error := some msg, time := elapsed }
      else if includesStr msg "net::ERR_CONNECTION_REFUSED" then
        { url := url, status := some 0, statusText := some "CONNECTION_REFUSED",
          title := none, error := some msg, time := elapsed }
      else if includesStr msg "net::ERR_CONNECTION_TIMED_OUT" then
        { url := url, status := some 0, statusText := some "TIMEOUT",
          title := none, error := some msg, time := elapsed }
      else if includesStr msg "Navigation timeout" then
        { url := url, status := some 0, statusText := some "NAV_TIMEOUT",
          title := none, error := some msg, time := elapsed }
      else
        { url := url, status := none, statusText := none,
          title := none, error := some msg, time := elapsed }

/-- The retry guard of the worker loop (line 116 of check-links.js):
`result.status === 0 && CONFIG.retries > 0`. -/
def shouldRetry (r : CheckResult) : Bool :=
  decide (r.status = some 0) && decide (0 < retriesConfig)

/-- One target's processing in the worker loop (lines 113-119): a first
attempt, then exactly one re-attempt when the retry guard fires; the
retained record is the final attempt's. -/
def runTarget (url : String) (ev1 ev2 : NavEvent) (t1 t2 : Int) : CheckResult :=
  let r1 := checkUrl url ev1 t1
  if shouldRetry r1 then checkUrl url ev2 t2 else r1

/-- Number of navigation attempts the worker loop makes on a target. -/
def attemptsMade (url : String) (ev1 : NavEvent) (t1 : Int) : Nat :=
  if shouldRetry (checkUrl url ev1 t1) then 2 else 1

/-- The effective status used by `generateReport` (line 147):
`r.status || 0`, i.e. a null status counts as 0. -/
def effStatus (st : Option Int) : Int :=
  match st with
  | none => 0
  | some s => s

/-- The six summary buckets of the report. -/
inductive Bucket where
  | ok
  | redirects
  | blocked
  | clientErrors
  | serverErrors
  | failed
deriving DecidableEq, Repr

/-- The classifier cascade of `generateReport` (lines 150-155), verbatim:
2xx ok, 3xx redirects, 403 blocked, remaining 4xx clientErrors, then
`status >= 500` serverErrors, everything else failed. -/
def bucketOf (s : Int) : Bucket :=
  if 200 ≤ s ∧ s < 300 then .ok
  else if 300 ≤ s ∧ s < 400 then .redirects
  else if s = 403 then .blocked
  else if 400 ≤ s ∧ s < 500 then .clientErrors
  else if 500 ≤ s then .serverErrors
  else .failed

/-- The summary object of `generateReport` (lines 134-142). -/
structure Summary where
  total : Nat
  ok : Nat
  redirects : Nat
  clientErrors : Nat
  serverErrors : Nat
  blocked : Nat
  failed : Nat
deriving DecidableEq, Repr

/-- Increment the summary field chosen by the classifier cascade. -/
def bumpSummary (acc : Summary) (b : Bucket) : Summary :=
  match b with
  | .ok => { acc with ok := acc.ok + 1 }
  | .redirects => { acc with redirects := acc.redirects + 1 }
  | .blocked => { acc with blocked := acc.blocked + 1 }
  | .clientErrors => { acc with clientErrors := acc.clientErrors + 1 }
  | .serverErrors => { acc with serverErrors := acc.serverErrors + 1 }
  | .failed => { acc with failed := acc.failed + 1 }

/-- The summary computed by `generateReport`: `total` set upfront to the
result count, then one bucket incremented per result. -/
def summarize (rs : List CheckResult) : Summary :=
  rs.foldl (fun acc r => bumpSummary acc (bucketOf (effStatus r.status)))
    { total := rs.length, ok := 0, redirects := 0, clientErrors := 0,
      serverErrors := 0, blocked := 0, failed := 0 }

/-- Sum of the six bucket counters of a summary. -/
def bucketSum (s : Summary) : Nat :=
  s.ok + s.redirects + s.blocked + s.clientErrors + s.serverErrors + s.failed

/-- One step of the `byStatus` histogram update
(`byStatus[status] = (byStatus[status] || 0) + 1`, line 148). -/
def bumpStatus : List (Int × Nat) → Int → List (Int × Nat)
  | [], s => [(s, 1)]
  | (k, v) :: rest, s =>
      if k = s then (k, v + 1) :: rest else (k, v) :: bumpStatus rest s

/-- The `byStatus` histogram of `generateReport`, keyed by the effective
status (`r.status || 0`). -/
def byStatusOf (rs : List CheckResult) : List (Int × Nat) :=
  rs.foldl (fun m r => bumpStatus m (effStatus r.status)) []

/-- Sort key of the final results sort (line 161): `a.status || 999`, so a
null or zero status is keyed 999. -/
def sortKey (r : CheckResult) : Int :=
  match r.status with
  | none => 999
  | some s => if s = 0 then 999 else s

/-- Comparator order induced by the numeric-difference comparator
`(a.status || 999) - (b.status || 999)`. -/
def resultLe (a b : CheckResult) : Prop :=
  sortKey a ≤ sortKey b

instance : DecidableRel resultLe := fun a b => by
  unfold resultLe; infer_instance

instance : IsTotal CheckResult resultLe :=
  ⟨fun a b => le_total (sortKey a) (sortKey b)⟩

instance : IsTrans CheckResult resultLe :=
  ⟨fun _ _ _ hab hbc => le_trans hab hbc⟩

/-- The final results sort of `generateReport` (line 161): JS `sort` is a
stable sort over the comparator, embedded as stable insertion sort over
`resultLe`. -/
def sortResults (rs : List CheckResult) : List CheckResult :=
  List.insertionSort resultLe rs

/-- The report object of `generateReport` (lines 158-163). -/
structure Report where
  summary : Summary
  byStatus : List (Int × Nat)
  results : List CheckResult
  timestamp : String
deriving Repr

/-- Embedding of `generateReport` (lines 133-164). -/
def generateReport (rs : List CheckResult) (ts : String) : Report :=
  { summary := summarize rs, byStatus := byStatusOf rs,
    results := sortResults rs, timestamp := ts }

/-- Normalization applied per extracted URL (line 34):
`url.replace(/[,.\)]+$/, '')`, i.e. drop the maximal trailing run of
commas, periods and closing parentheses. -/
def isTrailingPunct (c : Char) : Bool :=
  c = ',' || c = '.' || c = ')'

/-- Strip the maximal trailing run of `[,.)]` characters from a string. -/
def stripTrailing (s : String) : String :=
  String.mk ((s.data.reverse.dropWhile isTrailingPunct).reverse)

/-- First-occurrence deduplication, the order-preserving semantics of
`[...new Set(list)]`; `seen` accumulates values already emitted. -/
def dedupFirstGo (seen : List String) : List String → List String
  | [] => []
  | x :: xs =>
      if x ∈ seen then dedupFirstGo seen xs
      else x :: dedupFirstGo (x :: seen) xs

/-- Order-preserving deduplication by exact string equality. -/
def dedupFirst (l : List String) : List String :=
  dedupFirstGo [] l

/-- Embedding of `extractUrls` (lines 30-35) applied to the list of raw
regex matches found in the markdown content: normalize each match, then
deduplicate keeping first occurrences. -/
def extractUrls (found : List String) : List String :=
  dedupFirst (found.map stripTrailing)

/-- Split a character list at newline characters, the semantics of JS
`input.split('\n')`. -/
def splitLines : List Char → List (List Char)
  | [] => [[]]
  | c :: t =>
      match splitLines t with
      | [] => [[]]
      | l :: ls => if c = '\n' then [] :: l :: ls else (c :: l) :: ls

/-- JS whitespace test for `String.prototype.trim` (the characters that
matter for the stdin lines here). -/
def isJsWs (c : Char) : Bool :=
  c = ' ' || c = '\t' || c = '\n' || c = '\r'

/-- Embedding of JS `u.trim()`. -/
def jsTrim (s : String) : String :=
  String.mk (((s.data.dropWhile isJsWs).reverse.dropWhile isJsWs).reverse)

/-- The `--stdin` frontier construction (line 177 of check-links.js):
`input.split('\n').filter(u => u.trim().startsWith('http'))` — the kept
lines are the original, unnormalized ones, and no deduplication happens. -/
def stdinUrls (input : String) : List String :=
  ((splitLines input.data).map String.mk).filter
    (fun u => List.isPrefixOf "http".data (jsTrim u).data)

/-- The `--url` frontier construction (lines 172-174 of check-links.js):
the single argument is passed through verbatim. -/
def singleUrlFrontier (arg : String) : List String :=
  [arg]

/-- Embedding of `getExtractor` (refresh-data.js): substring dispatch on
the URL, instagram first, then statista, else generic. -/
def getExtractor (url : String) : String :=
  if includesStr url "instagram.com" then "instagram"
  else if includesStr url "statista.com" then "statista"
  else "generic"

/-- The extractor registry as the spec describes it: an ordered list of
match-predicate/kind entries ending in a catch-all generic entry. -/
def extractorRegistry : List ((String → Bool) × String) :=
  [(fun u => includesStr u "instagram.com", "instagram"),
   (fun u => includesStr u "statista.com", "statista"),
   (fun _ => true, "generic")]

/-- First-match dispatch over an ordered registry (the spec's dispatch
discipline, to be compared with the source's `getExtractor`). -/
def dispatchFirst (url : String) : List ((String → Bool) × String) → Option String
  | [] => none
  | (p, k) :: rest => if p url then some k else dispatchFirst url rest

/-- The record returned by `extractData` (refresh-data.js lines 332-348):
extractor payload plus `success`, or on a caught exception the record
`{ url, type, success:false, error, timestamp }`. -/
structure ExtractionRecord where
  url : String
  kind : String
  success : Bool
  fields : List (String × String)
  error : Option String
  timestamp : String
deriving DecidableEq, Repr

/-- Embedding of `extractData`: run the extractor selected by
`getExtractor`; a normal return is recorded with `success := true`, a
thrown exception is caught and converted to a `success := false` record
carrying the message — the function is total, nothing propagates. -/
def extractData (url : String) (ts : String)
    (run : Except String (List (String × String))) : ExtractionRecord :=
  match run with
  | .ok payload =>
      { url := url, kind := getExtractor url, success := true,
        fields := payload, error := none, timestamp := ts }
  | .error msg =>
      { url := url, kind := getExtractor url, success := false,
        fields := [], error := some msg, timestamp := ts }

/-- Worker state in the pool model: waiting to claim a target, driving a
navigation for a target, or finished (page closed). -/
inductive WStatus where
  | idle : WStatus
  | fetching : String → WStatus
  | closed : WStatus
deriving DecidableEq, Repr

/-- Whether a worker currently has a navigation in flight. -/
def isFetchingW : WStatus → Bool
  | .fetching _ => true
  | _ => false

/-- Shared state of `processUrls`: the shared `queue`, the worker pool,
and the shared `results` accumulator. -/
structure PoolState where
  queue : List String
  workers : List WStatus
  results : List CheckResult
deriving DecidableEq, Repr

/-- Number of concurrently in-flight fetches. -/
def inFlight (s : PoolState) : Nat :=
  s.workers.countP isFetchingW

/-- Initial state of `processUrls` (lines 85-90): the queue is a copy of
the url list, `CONFIG.concurrency` workers are spawned idle, `results`
is empty. -/
def initPool (p : Nat) (urls : List String) : PoolState :=
  { queue := urls, workers := List.replicate p .idle, results := [] }

/-- Interleaving semantics of the worker loop (lines 107-124), with
`runOf` giving the result a worker's fetch-with-retry produces for a
url. `claim` is the atomic `queue.shift()` on a url that passes the
`if (!url) break` guard; `claimEmpty` is the same shift on a falsy
(empty) url, which makes the worker break without recording anything;
`finish` completes the fetch and pushes the final result; `exit` is
loop exit on an empty queue followed by `page.close()`. -/
inductive PoolStep (runOf : String → CheckResult) : PoolState → PoolState → Prop where
  | claim (s : PoolState) (i : Nat) (u : String) (rest : List String) :
      s.queue = u :: rest → u ≠ "" → s.workers[i]? = some .idle →
      PoolStep runOf s ⟨rest, s.workers.set i (.fetching u), s.results⟩
  | claimEmpty (s : PoolState) (i : Nat) (rest : List String) :
      s.queue = "" :: rest → s.workers[i]? = some .idle →
      PoolStep runOf s ⟨rest, s.workers.set i .closed, s.results⟩
  | finish (s : PoolState) (i : Nat) (u : String) :
      s.workers[i]? = some (.fetching u) →
      PoolStep runOf s ⟨s.queue, s.workers.set i .idle, s.results ++ [runOf u]⟩
  | exit (s : PoolState) (i : Nat) :
      s.queue = [] → s.workers[i]? = some .idle →
      PoolStep runOf s ⟨[], s.workers.set i .closed, s.results⟩

/-- Reachability in the pool transition system. -/
def PoolReach (runOf : String → CheckResult) : PoolState → PoolState → Prop :=
  Relation.ReflTransGen (PoolStep runOf)

/-- Outcome of the concurrency-option validation (part_003 lines 188-195). -/
inductive ConcDecision where
  | accept : Nat → ConcDecision
  | fatal : ConcDecision
deriving DecidableEq, Repr

/-- Embedding of the concurrency-argument check: `n > 0 && n <= 20` sets
`CONFIG.concurrency = n`, anything else is a fatal invocation error
(`process.exit(1)`). -/
def applyConcurrency (n : Int) : ConcDecision :=
  if 0 < n ∧ n ≤ 20 then .accept n.toNat else .fatal

/-- Sum of all histogram counts of the byStatus table. -/
def histSum (m : List (Int × Nat)) : Nat :=
  (m.map Prod.snd).sum

/-- Counting invariant of the pool run: every queued url is non-empty, and
queued, in-flight and recorded targets together account for the whole
frontier. -/
def PoolInv (total : Nat) (s : PoolState) : Prop :=
  (∀ u ∈ s.queue, u ≠ "") ∧
  s.queue.length + inFlight s + s.results.length = total

/-- A concrete fetch environment used to instantiate the pool model on
closed runs: every navigation succeeds with a 200 response. -/
def sampleRun : String → CheckResult :=
  fun u => checkUrl u (.success 200 "OK" none) 0

/-- A concrete result whose navigation failed with an unrecognized error,
so its recorded status is null. -/
def resNoStatus : CheckResult :=
  { url := "http://no-status", status := none, statusText := none,
    title := none, error := some "mystery glitch", time := 1 }

/-- A concrete result with the (real-world) HTTP status 999. -/
def res999 : CheckResult :=
  { url := "http://status-999", status := some 999,
    statusText := some "Request Denied", title := none, error := none, time := 2 }

/-! ### Helper lemmas -/

theorem countP_set_of_get (p : WStatus → Bool) (l : List WStatus) (i : Nat)
    (a b : WStatus) (h : l[i]? = some a) :
    (l.set i b).countP p + (if p a then 1 else 0) =
      l.countP p + (if p b then 1 else 0) := by
  induction l generalizing i with
  | nil => simp at h
  | cons x xs ih =>
      cases i with
      | zero =>
          simp only [List.getElem?_cons_zero, Option.some.injEq] at h
          subst h
          simp only [List.set_cons_zero, List.countP_cons]
          omega
      | succ j =>
          simp only [List.getElem?_cons_succ] at h
          simp only [List.set_cons_succ, List.countP_cons]
          have := ih j h
          omega

theorem poolStep_workers_length {runOf : String → CheckResult}
    {s s' : PoolState} (h : PoolStep runOf s s') :
    s'.workers.length = s.workers.length := by
  cases h <;> simp

theorem poolReach_workers_length {runOf : String → CheckResult}
    {s s' : PoolState} (h : PoolReach runOf s s') :
    s'.workers.length = s.workers.length := by
  induction h with
  | refl => rfl
  | tail _ hstep ih => rw [poolStep_workers_length hstep, ih]

theorem poolStep_inv {runOf : String → CheckResult} {total : Nat}
    {s s' : PoolState} (hstep : PoolStep runOf s s') (hinv : PoolInv total s) :
    PoolInv total s' := by
  obtain ⟨hne, hcount⟩ := hinv
  cases hstep with
  | claim i u rest hq hu hw =>
      refine ⟨fun v hv => hne v (by rw [hq]; exact List.mem_cons_of_mem _ hv), ?_⟩
      have hc := countP_set_of_get isFetchingW s.workers i .idle (.fetching u) hw
      simp [isFetchingW] at hc
      simp only [inFlight] at hcount ⊢
      rw [hq] at hcount
      simp only [List.length_cons] at hcount
      omega
  | claimEmpty i rest hq hw =>
      exact absurd rfl (hne "" (by rw [hq]; exact List.mem_cons_self _ _))
  | finish i u hw =>
      refine ⟨hne, ?_⟩
      have hc := countP_set_of_get isFetchingW s.workers i (.fetching u) .idle hw
      simp [isFetchingW] at hc
      simp only [inFlight, List.length_append, List.length_cons, List.length_nil] at hcount ⊢
      omega
  | exit i hq hw =>
      refine ⟨by simp, ?_⟩
      have hc := countP_set_of_get isFetchingW s.workers i .idle .closed hw
      simp [isFetchingW] at hc
      rw [hq] at hcount
      simp only [inFlight, List.length_nil] at hcount ⊢
      omega

theorem poolReach_inv {runOf : String → CheckResult} {total : Nat}
    {s s' : PoolState} (h : PoolReach runOf s s') (hinv : PoolInv total s) :
    PoolInv total s' := by
  induction h with
  | refl => exact hinv
  | tail _ hstep ih => exact poolStep_inv hstep ih

theorem dedupFirstGo_mem (l : List String) (seen : List String) :
    ∀ u ∈ dedupFirstGo seen l, u ∈ l := by
  induction l generalizing seen with
  | nil => intro u hu; simp [dedupFirstGo] at hu
  | cons x xs ih =>
      intro u hu
      simp only [dedupFirstGo] at hu
      by_cases hx : x ∈ seen
      · rw [if_pos hx] at hu
        exact List.mem_cons_of_mem _ (ih seen u hu)
      · rw [if_neg hx] at hu
        rcases List.mem_cons.mp hu with h | h
        · exact h ▸ List.mem_cons_self _ _
        · exact List.mem_cons_of_mem _ (ih (x :: seen) u h)

theorem dedupFirstGo_not_seen (l : List String) (seen : List String) :
    ∀ u ∈ dedupFirstGo seen l, u ∉ seen := by
  induction l generalizing seen with
  | nil => intro u hu; simp [dedupFirstGo] at hu
  | cons x xs ih =>
      intro u hu
      simp only [dedupFirstGo] at hu
      by_cases hx : x ∈ seen
      · rw [if_pos hx] at hu
        exact ih seen u hu
      · rw [if_neg hx] at hu
        rcases List.mem_cons.mp hu with h | h
        · exact h ▸ hx
        · intro hs
          exact ih (x :: seen) u h (List.mem_cons_of_mem _ hs)

theorem dedupFirstGo_nodup (l : List String) (seen : List String) :
    (dedupFirstGo seen l).Nodup := by
  induction l generalizing seen with
  | nil => simp [dedupFirstGo]
  | cons x xs ih =>
      simp only [dedupFirstGo]
      by_cases hx : x ∈ seen
      · rw [if_pos hx]; exact ih seen
      · rw [if_neg hx]
        refine List.nodup_cons.mpr ⟨?_, ih (x :: seen)⟩
        intro hmem
        exact dedupFirstGo_not_seen xs (x :: seen) x hmem (List.mem_cons_self _ _)

theorem bucketSum_bump (acc : Summary) (b : Bucket) :
    bucketSum (bumpSummary acc b) = bucketSum acc + 1 := by
  cases b <;> simp [bumpSummary, bucketSum] <;> omega

theorem total_bump (acc : Summary) (b : Bucket) :
    (bumpSummary acc b).total = acc.total := by
  cases b <;> rfl

theorem summarize_fold_bucketSum (rs : List CheckResult) (acc : Summary) :
    bucketSum (rs.foldl (fun a r => bumpSummary a (bucketOf (effStatus r.status))) acc) =
      bucketSum acc + rs.length := by
  induction rs generalizing acc with
  | nil => simp
  | cons r tl ih =>
      simp only [List.foldl_cons, List.length_cons, ih, bucketSum_bump]
      omega

theorem summarize_fold_total (rs : List CheckResult) (acc : Summary) :
    (rs.foldl (fun a r => bumpSummary a (bucketOf (effStatus r.status))) acc).total =
      acc.total := by
  induction rs generalizing acc with
  | nil => rfl
  | cons r tl ih => simp only [List.foldl_cons, ih, total_bump]

theorem histSum_bump (m : List (Int × Nat)) (s : Int) :
    histSum (bumpStatus m s) = histSum m + 1 := by
  induction m with
  | nil => simp [bumpStatus, histSum]
  | cons kv rest ih =>
      obtain ⟨k, v⟩ := kv
      simp only [bumpStatus]
      by_cases hk : k = s
      · rw [if_pos hk]; simp [histSum]; omega
      · rw [if_neg hk]
        simp only [histSum, List.map_cons, List.sum_cons] at ih ⊢
        omega

theorem byStatus_fold (rs : List CheckResult) (m : List (Int × Nat)) :
    histSum (rs.foldl (fun m r => bumpStatus m (effStatus r.status)) m) =
      histSum m + rs.length := by
  induction rs generalizing m with
  | nil => simp
  | cons r tl ih =>
      simp only [List.foldl_cons, List.length_cons, ih, histSum_bump]
      omega

/-! ### Claim theorems -/

/-- C1 counterexample: the classifier sends status 999 to the serverErrors
bucket, not to failed, because the cascade's server-error guard is
`status >= 500` with no upper bound; the claim's "any status of 600 or
above maps to failed" is false at 999. -/
theorem bucketOf_999_refutes_claim :
    bucketOf 999 = Bucket.serverErrors ∧ Bucket.serverErrors ≠ Bucket.failed := by
  decide

/-- C1 (amended): the classifier assigns exactly one bucket: 200-299 ok,
300-399 redirect, 403 blocked, 400-499 other than 403 clientError, and
every status of 500 or more (999 included) serverError; a missing status
counts as 0 and falls, like every status below 200, in failed. -/
theorem bucketOf_cases (s : Int) :
    (200 ≤ s ∧ s < 300 → bucketOf s = Bucket.ok) ∧
    (300 ≤ s ∧ s < 400 → bucketOf s = Bucket.redirects) ∧
    (s = 403 → bucketOf s = Bucket.blocked) ∧
    (400 ≤ s ∧ s < 500 ∧ s ≠ 403 → bucketOf s = Bucket.clientErrors) ∧
    (500 ≤ s → bucketOf s = Bucket.serverErrors) ∧
    (s < 200 → bucketOf s = Bucket.failed) ∧
    bucketOf (effStatus none) = Bucket.failed := by
  refine ⟨?_, ?_, ?_, ?_, ?_, ?_, by decide⟩ <;>
    · intro h
      unfold bucketOf
      split_ifs <;> first | rfl | omega

/-- C1 witness: the amended classifier table applied at one concrete status
of every bucket. -/
theorem bucketOf_cases_witness :
    bucketOf 200 = Bucket.ok ∧ bucketOf 301 = Bucket.redirects ∧
    bucketOf 403 = Bucket.blocked ∧ bucketOf 404 = Bucket.clientErrors ∧
    bucketOf 500 = Bucket.serverErrors ∧ bucketOf 0 = Bucket.failed :=
  ⟨(bucketOf_cases 200).1 (by decide),
   (bucketOf_cases 301).2.1 (by decide),
   (bucketOf_cases 403).2.2.1 rfl,
   (bucketOf_cases 404).2.2.2.1 (by decide),
   (bucketOf_cases 500).2.2.2.2.1 (by decide),
   (bucketOf_cases 0).2.2.2.2.2.1 (by decide)⟩

/-- C2 counterexample: an attempt whose error text matches none of the four
recognized signatures is classified unknown — its recorded status stays
null, not 0 — and even though the retry budget is positive the worker does
not re-attempt: the retained outcome is the first attempt's record, not
the second attempt's. -/
theorem unknown_error_not_retried :
    (checkUrl "http://x" (.failure "mystery glitch") 5).status = none ∧
    0 < retriesConfig ∧
    runTarget "http://x" (.failure "mystery glitch") (.success 200 "OK" none) 5 7 =
      checkUrl "http://x" (.failure "mystery glitch") 5 ∧
    runTarget "http://x" (.failure "mystery glitch") (.success 200 "OK" none) 5 7 ≠
      checkUrl "http://x" (.success 200 "OK" none) 7 := by
  decide

/-- C2 (amended): the worker re-attempts exactly when the first attempt's
recorded status is 0 — a zero-status response, or an error matching the
DNS-failure, connection-refused, connection-timeout or navigation-timeout
signature — and the retry budget is positive; an error matching none of
the signatures leaves the status null, so the attempt is not retried. -/
theorem retry_iff_zero_status (url : String) (ev1 ev2 : NavEvent) (t1 t2 : Int) :
    ((checkUrl url ev1 t1).status = some 0 →
      runTarget url ev1 ev2 t1 t2 = checkUrl url ev2 t2) ∧
    ((checkUrl url ev1 t1).status ≠ some 0 →
      runTarget url ev1 ev2 t1 t2 = checkUrl url ev1 t1) ∧
    (∀ msg, includesStr msg "net::ERR_NAME_NOT_RESOLVED" = false →
      includesStr msg "net::ERR_CONNECTION_REFUSED" = false →
      includesStr msg "net::ERR_CONNECTION_TIMED_OUT" = false →
      includesStr msg "Navigation timeout" = false →
      (checkUrl url (.failure msg) t1).status = none) := by
  refine ⟨?_, ?_, ?_⟩
  · intro h
    simp [runTarget, shouldRetry, h, retriesConfig]
  · intro h
    simp [runTarget, shouldRetry, h]
  · intro msg h1 h2 h3 h4
    simp [checkUrl, h1, h2, h3, h4]

/-- C2 witness: a DNS failure on the first attempt (status 0) is retried;
the retained outcome is the second attempt's record. -/
theorem retry_iff_zero_status_witness :
    runTarget "http://x" (.failure "net::ERR_NAME_NOT_RESOLVED at http://x")
        (.success 200 "OK" none) 3 4 =
      checkUrl "http://x" (.success 200 "OK" none) 4 :=
  (retry_iff_zero_status "http://x" (.failure "net::ERR_NAME_NOT_RESOLVED at http://x")
      (.success 200 "OK" none) 3 4).1 (by decide)

/-- C4 counterexample: the outcome record built per attempt carries exactly
the keys url, status, statusText, title, error and time — there is no
retryCount field. -/
theorem no_retryCount_field : ¬ ("retryCount" ∈ resultKeys) := by
  decide

/-- C4 (amended): outcome records carry no retryCount field; a target whose
every attempt records status 0 is re-attempted exactly the configured
number of retries (one), making 1 + retries attempts in total, and its
retained final outcome — the last attempt's record — falls in the failed
bucket. -/
theorem retry_exhaustion (url : String) (ev1 ev2 : NavEvent) (t1 t2 : Int)
    (h1 : (checkUrl url ev1 t1).status = some 0)
    (h2 : (checkUrl url ev2 t2).status = some 0) :
    ("retryCount" ∈ resultKeys → False) ∧
    runTarget url ev1 ev2 t1 t2 = checkUrl url ev2 t2 ∧
    attemptsMade url ev1 t1 = 1 + retriesConfig ∧
    bucketOf (effStatus (runTarget url ev1 ev2 t1 t2).status) = Bucket.failed := by
  have hrun : runTarget url ev1 ev2 t1 t2 = checkUrl url ev2 t2 := by
    simp [runTarget, shouldRetry, h1, retriesConfig]
  refine ⟨by decide, hrun, ?_, ?_⟩
  · simp [attemptsMade, shouldRetry, h1, retriesConfig]
  · rw [hrun, h2]
    decide

/-- C4 witness: a target whose two attempts both hit a recognized failure
signature retains the failed-bucket outcome of the final attempt. -/
theorem retry_exhaustion_witness :
    runTarget "http://x" (.failure "net::ERR_CONNECTION_REFUSED (x)")
        (.failure "net::ERR_CONNECTION_TIMED_OUT (x)") 3 4 =
      checkUrl "http://x" (.failure "net::ERR_CONNECTION_TIMED_OUT (x)") 4 :=
  (retry_exhaustion "http://x" (.failure "net::ERR_CONNECTION_REFUSED (x)")
      (.failure "net::ERR_CONNECTION_TIMED_OUT (x)") 3 4 (by decide) (by decide)).2.1

/-- C5 counterexample: the stdin line stream is handed to the workers
verbatim — a duplicated line stays duplicated (no deduplication) and a
trailing period is kept (no normalization); the claim fails for the
stdin input path. -/
theorem stdin_frontier_not_deduplicated :
    stdinUrls "http://a\nhttp://a" = ["http://a", "http://a"] ∧
    ¬ (stdinUrls "http://a\nhttp://a").Nodup ∧
    stdinUrls "http://a." = ["http://a."] := by
  decide

/-- C5 (amended): only the markdown-file path builds its frontier through
extractUrls, which normalizes every match by trimming trailing punctuation
and deduplicates once, at construction, by exact string equality — the
resulting frontier has no duplicates and each of its urls is a normalized
match; the --url path passes its single argument through verbatim. -/
theorem extractUrls_nodup_normalized (found : List String) :
    (extractUrls found).Nodup ∧
    (∀ u ∈ extractUrls found, ∃ m ∈ found, u = stripTrailing m) ∧
    (∀ arg : String, singleUrlFrontier arg = [arg]) := by
  refine ⟨dedupFirstGo_nodup _ _, ?_, fun _ => rfl⟩
  intro u hu
  have hmem : u ∈ found.map stripTrailing := dedupFirstGo_mem _ _ u hu
  rcases List.mem_map.mp hmem with ⟨m, hm, hms⟩
  exact ⟨m, hm, hms.symm⟩

/-- C5 witness: the markdown frontier built from two matches that normalize
to the same url keeps one copy, and that copy is a normalized match. -/
theorem extractUrls_nodup_normalized_witness :
    ∃ m ∈ ["http://a,", "http://a"], "http://a" = stripTrailing m :=
  (extractUrls_nodup_normalized ["http://a,", "http://a"]).2.1 "http://a" (by decide)

/-- C7 counterexample: the sort keys a missing status with the sentinel 999,
so an outcome lacking a status ties with a real status of 999 and, the sort
being stable, stays in front of it: in the sorted output the status-less
outcome is not ordered after the outcome that has a status. -/
theorem missing_status_not_sorted_last :
    sortResults [resNoStatus, res999] = [resNoStatus, res999] ∧
    resNoStatus.status = none ∧ (res999.status).isSome = true := by
  decide

/-- C7 (amended): the results list is stable-sorted ascending by the
comparator key `status || 999` — a missing (or zero) status is keyed by
the sentinel 999, hence ordered after every status below 999 but tied with
999 and before anything above it; the output is a permutation of the
input, pairwise ordered by that key. -/
theorem sortResults_sorted_perm (rs : List CheckResult) :
    (sortResults rs).Perm rs ∧ (sortResults rs).Sorted resultLe :=
  ⟨List.perm_insertionSort resultLe rs, List.sorted_insertionSort resultLe rs⟩

/-- C8: an extractor-internal failure is caught at the extractData boundary
and converted into a record with success false carrying the error message
and the dispatched extractor kind; extractData is a total function — the
failure never propagates — and, taking no fetch outcome as input, it can
alter none: a success-false record arises only with a recorded message. -/
theorem extractData_catches_failures (url ts msg : String) :
    (extractData url ts (Except.error msg)).success = false ∧
    (extractData url ts (Except.error msg)).error = some msg ∧
    (extractData url ts (Except.error msg)).url = url ∧
    (extractData url ts (Except.error msg)).kind = getExtractor url ∧
    ∀ run : Except String (List (String × String)),
      (extractData url ts run).success = false →
        ∃ m, (extractData url ts run).error = some m := by
  refine ⟨rfl, rfl, rfl, rfl, ?_⟩
  intro run h
  cases run with
  | ok payload => simp [extractData] at h
  | error m => exact ⟨m, rfl⟩

/-- C8 witness: a thrown extraction error on a concrete url is returned as
a success-false record with its message. -/
theorem extractData_catches_failures_witness :
    ∃ m, (extractData "http://a" "t0" (Except.error "boom")).error = some m :=
  (extractData_catches_failures "http://a" "t0" "boom").2.2.2.2
    (Except.error "boom") rfl

/-- C9: extractor dispatch is first-match-wins over the priority-ordered
registry: getExtractor agrees with first-match dispatch over the ordered
registry whose catch-all generic entry always matches; a url containing
instagram.com selects instagram, otherwise one containing statista.com
selects statista, and everything else falls back to generic. -/
theorem getExtractor_priority (url : String) :
    dispatchFirst url extractorRegistry = some (getExtractor url) ∧
    (includesStr url "instagram.com" = true → getExtractor url = "instagram") ∧
    (includesStr url "instagram.com" = false →
      includesStr url "statista.com" = true → getExtractor url = "statista") ∧
    (includesStr url "instagram.com" = false →
      includesStr url "statista.com" = false → getExtractor url = "generic") := by
  cases h1 : includesStr url "instagram.com" <;>
    cases h2 : includesStr url "statista.com" <;>
      simp [getExtractor, dispatchFirst, extractorRegistry, h1, h2]

/-- C9 witness: a statista.com url that does not contain instagram.com is
dispatched to the statista extractor. -/
theorem getExtractor_priority_witness :
    getExtractor "https://www.statista.com/stats" = "statista" :=
  (getExtractor_priority "https://www.statista.com/stats").2.2.1
    (by decide) (by decide)

/-- C10: report invariants: summary.total equals the number of results, the
six bucket counters (each one incremented exactly once per result) sum to
total, all six bucket fields are present and zero-filled on an empty run,
and the byStatus histogram counts also sum to total. -/
theorem generateReport_invariants (rs : List CheckResult) (ts : String) :
    (generateReport rs ts).summary.total = rs.length ∧
    bucketSum (generateReport rs ts).summary = (generateReport rs ts).summary.total ∧
    histSum (generateReport rs ts).byStatus = (generateReport rs ts).summary.total ∧
    summarize [] = Summary.mk 0 0 0 0 0 0 0 := by
  have htotal : (generateReport rs ts).summary.total = rs.length := by
    simp [generateReport, summarize, summarize_fold_total]
  refine ⟨htotal, ?_, ?_, rfl⟩
  · rw [htotal]
    have := summarize_fold_bucketSum rs
      { total := rs.length, ok := 0, redirects := 0, clientErrors := 0,
        serverErrors := 0, blocked := 0, failed := 0 }
    simp [generateReport, summarize, bucketSum] at this ⊢
    omega
  · rw [htotal]
    have := byStatus_fold rs []
    simp [generateReport, byStatusOf, histSum] at this ⊢
    omega

/-- C3: for a non-empty frontier of size M whose urls are all non-empty
strings (every normalized http url is), every completed run of the worker
pool — queue drained, every worker's loop exited — has recorded exactly M
final outcomes, one per target, each pushed once by the worker that
claimed the target. -/
theorem results_length_eq_frontier (runOf : String → CheckResult) (p : Nat)
    (urls : List String) (s : PoolState)
    (hM : 0 < urls.length) (hgood : ∀ u ∈ urls, u ≠ "")
    (hreach : PoolReach runOf (initPool p urls) s)
    (hqueue : s.queue = []) (hdone : ∀ w ∈ s.workers, w = WStatus.closed) :
    s.results.length = urls.length := by
  have hinv0 : PoolInv urls.length (initPool p urls) := by
    refine ⟨hgood, ?_⟩
    have hzero : inFlight (initPool p urls) = 0 := by
      refine List.countP_eq_zero.mpr ?_
      intro w hw
      rw [List.eq_of_mem_replicate hw]
      simp [isFetchingW]
    rw [hzero]
    simp [initPool]
  obtain ⟨_, hcount⟩ := poolReach_inv hreach hinv0
  have hzero : inFlight s = 0 := by
    refine List.countP_eq_zero.mpr ?_
    intro w hw
    rw [hdone w hw]
    simp [isFetchingW]
  rw [hqueue] at hcount
  simp only [List.length_nil, hzero] at hcount
  omega

/-- C3 witness: a one-worker run over the one-url frontier, traced step by
step (claim, finish, exit), ends with exactly one recorded outcome. -/
theorem results_length_eq_frontier_witness :
    (PoolState.mk [] [WStatus.closed] [sampleRun "http://a"]).results.length = 1 := by
  refine results_length_eq_frontier sampleRun 1 ["http://a"] _ (by decide) (by decide)
    ?_ rfl (by intro w hw; simpa using hw)
  refine Relation.ReflTransGen.head (PoolStep.claim _ 0 "http://a" [] rfl (by decide) rfl) ?_
  refine Relation.ReflTransGen.head (PoolStep.finish _ 0 "http://a" rfl) ?_
  exact Relation.ReflTransGen.single (PoolStep.exit _ 0 rfl rfl)

/-- C6: the pool spawns exactly P worker loops, each with at most one
navigation in flight, so in every state reachable in a run the number of
concurrently in-flight fetches is at most P; and a requested concurrency
outside 1..20 makes the invocation fail fatally before any run starts,
while a value inside the range is accepted as the pool size. -/
theorem concurrency_bounded (runOf : String → CheckResult) (p : Nat)
    (urls : List String) (s : PoolState)
    (hreach : PoolReach runOf (initPool p urls) s) :
    inFlight s ≤ p ∧
    (∀ n : Int, n < 1 ∨ 20 < n → applyConcurrency n = ConcDecision.fatal) ∧
    (∀ n : Int, 1 ≤ n ∧ n ≤ 20 → applyConcurrency n = ConcDecision.accept n.toNat) := by
  refine ⟨?_, ?_, ?_⟩
  · have hlen := poolReach_workers_length hreach
    have : s.workers.length = p := by simpa [initPool] using hlen
    calc inFlight s ≤ s.workers.length := List.countP_le_length _
      _ = p := this
  · intro n hn
    unfold applyConcurrency
    rw [if_neg (by omega)]
  · intro n hn
    unfold applyConcurrency
    rw [if_pos (by omega)]

/-- C6 witness: the bound applied to the initial state of a two-worker run,
a rejected request of 25 tabs, and an accepted request of 10 tabs. -/
theorem concurrency_bounded_witness :
    inFlight (initPool 2 ["http://a", "http://b"]) ≤ 2 ∧
    applyConcurrency 25 = ConcDecision.fatal ∧
    applyConcurrency 10 = ConcDecision.accept 10 :=
  ⟨(concurrency_bounded sampleRun 2 ["http://a", "http://b"] _
      Relation.ReflTransGen.refl).1,
   (concurrency_bounded sampleRun 2 ["http://a", "http://b"] _
      Relation.ReflTransGen.refl).2.1 25 (by decide),
   (concurrency_bounded sampleRun 2 ["http://a", "http://b"] _
      Relation.ReflTransGen.refl).2.2 10 (by decide)⟩

end RefTools
